import Mathlib

/-!
# Verification of ceymail-mission-control core subsystems

Shallow embedding, in Lean 4, of the monitoring / state-aggregation pipeline
and the install orchestrator of the `ceymail-mission-control` repository
(crates `mc-actors`, `mc-core`, `mc-services`).

External effects (command output, the filesystem, wall-clock time) are
modelled as explicit oracle parameters; the control flow and data
transformations are translated directly from the Rust source.  Rust `String`s
are Lean `String`s; `u8`/`u32`/`u64`/`usize` counters are `Nat` (with an
explicit `% 2^32` where the Rust code performs wrapping `u32` arithmetic or an
`as u32` cast); `chrono::DateTime<Utc>` timestamps are opaque `Nat` values
threaded as a `now` parameter.
-/

namespace Ceymail

/-! ## Generic string helpers

Rust `str` operations used by the embedded code, modelled on the character
level (all patterns that occur in the embedded code are pure ASCII, for which
byte-level and character-level matching coincide). -/

/-- Rust `char::is_ascii_alphanumeric` / the regex class `[a-zA-Z0-9]`. -/
def isAlnumAscii (c : Char) : Bool :=
  c.isAlpha || c.isDigit

/-- Rust `char::is_ascii_hexdigit`. -/
def isAsciiHexDigit (c : Char) : Bool :=
  c.isDigit || (Char.ofNat 97 ≤ c && c ≤ Char.ofNat 102) ||
    (Char.ofNat 65 ≤ c && c ≤ Char.ofNat 70)

/-- Rust `str::contains(pat)` for a literal pattern: `pat` occurs as a
contiguous substring of `s`.  (For ASCII patterns, byte-level substring
search and character-level infix search agree.) -/
def containsSub (s pat : String) : Bool :=
  decide (pat.toList <:+: s.toList)

/-- Rust `str::to_lowercase`, modelled for the ASCII range (the keyword
patterns matched against the result are all pure ASCII). -/
def lowerAscii (s : String) : String :=
  String.mk (s.toList.map Char.toLower)

/-- The last `n` elements of a list, in order (all of them when the list is
shorter than `n`). -/
def lastN (n : Nat) (l : List α) : List α :=
  l.drop (l.length - n)

/-- Split a list at the first occurrence of `sep`: returns
`some (front, back)` where `front` is the (possibly empty) run before the
first `sep` and `back` everything after it, or `none` when `sep` does not
occur. -/
def splitFirst (sep : Char) : List Char → Option (List Char × List Char)
  | [] => none
  | c :: cs =>
      if c = sep then some ([], cs)
      else match splitFirst sep cs with
        | some (front, back) => some (c :: front, back)
        | none => none

/-- Rust `str::splitn(n, sep)`: at most `n` fields, splitting at the first
`n - 1` occurrences of `sep`; the last field keeps any remaining separators.
`splitn(0, _)` yields no fields, like Rust's. -/
def splitnChar (n : Nat) (sep : Char) (s : List Char) : List (List Char) :=
  match n with
  | 0 => []
  | 1 => [s]
  | m + 2 =>
      match splitFirst sep s with
      | some (front, back) => front :: splitnChar (m + 1) sep back
      | none => [s]

/-- Rust `str::split(sep).next()`: the field before the first occurrence of
`sep` (the whole string when `sep` is absent). -/
def firstField (sep : Char) (s : List Char) : List Char :=
  match splitFirst sep s with
  | some (front, _) => front
  | none => s

/-! ## `mc-actors/src/log_watcher.rs` -/

/-- Model of `LogLevel` from `log_watcher.rs`. -/
inductive LogLevel where
  | Debug
  | Info
  | Warning
  | Error
  deriving DecidableEq, Repr

/-- Function `LogLevel::from_line`: keyword classification of a raw log line. -/
def LogLevel.from_line (line : String) : LogLevel :=
  let lower := lowerAscii line
  if containsSub lower "error" || containsSub lower "fatal" ||
      containsSub lower "panic" then
    LogLevel.Error
  else if containsSub lower "warn" || containsSub lower "reject" then
    LogLevel.Warning
  else if containsSub lower "debug" then
    LogLevel.Debug
  else
    LogLevel.Info

/-- Function `parse_source` from `log_watcher.rs`: extract the originating service
from a syslog-style line `"Mon DD HH:MM:SS hostname service[pid]: message"`. -/
def parse_source (line : String) : String :=
  let parts := splitnChar 6 (Char.ofNat 32) line.toList
  if parts.length ≥ 5 then
    String.mk (firstField (Char.ofNat 91) (parts.get! 4))
  else
    "unknown"

/-- Model of `LogEntry` from `log_watcher.rs` (`timestamp` is an opaque instant). -/
structure LogEntry where
  timestamp : Nat
  level : LogLevel
  source : String
  message : String
  deriving DecidableEq, Repr

namespace LogWatcher

/-- Function `LogWatcher::tail_lines(log_path, n)`.  The filesystem is an oracle:
`file = none` models a path that does not exist or cannot be opened (the
`!path.exists()` early return and the failed `File::open` both return an
empty vector); `file = some allLines` models a readable file whose
successfully decoded lines are `allLines` (the Rust code drops lines whose
read fails via `filter_map(|l| l.ok())`).  `now` is the shared ingestion
timestamp `Utc::now()`. -/
def tail_lines (file : Option (List String)) (now : Nat) (n : Nat) :
    List LogEntry :=
  match file with
  | none => []
  | some all_lines =>
      let start := if all_lines.length > n then all_lines.length - n else 0
      (all_lines.drop start).map fun line =>
        { timestamp := now
          level := LogLevel.from_line line
          source := parse_source line
          message := line }

end LogWatcher

/-! ## `mc-actors/src/queue_monitor.rs` -/

/-- Reduction modulo `2^32 = 4294967296`: Rust `u32` wrapping arithmetic /
`as u32`. -/
def u32Mod (n : Nat) : Nat := n % 4294967296

/-- Model of `QueueSnapshot` from `queue_monitor.rs` (all counters are `u32`). -/
structure QueueSnapshot where
  timestamp : Nat
  active : Nat
  deferred : Nat
  hold : Nat
  bounce : Nat
  total : Nat
  deriving DecidableEq, Repr

/-- Outcome of the external `postqueue` tool, as observed by
`collect_queue_stats`:
* `jsonOk entries` — `postqueue -j` ran with a success status; `entries`
  holds, for each non-blank stdout line, `none` when
  `serde_json::from_str::<PostqueueEntry>` fails on it and
  `some queueName` (with the entry's optional `queue_name` field) when it
  parses;
* `jsonFail fallbackLines` — `postqueue -j` ran but reported failure;
  `fallbackLines` is `some` of the stdout lines of `postqueue -p` when that
  fallback invocation succeeds, `none` when it errors too;
* `notAvailable` — spawning `postqueue -j` itself failed. -/
inductive PostqueueOutcome where
  | jsonOk (entries : List (Option (Option String)))
  | jsonFail (fallbackLines : Option (List String))
  | notAvailable

/-- One iteration of the NDJSON counting loop in `collect_queue_stats`:
bump the counter selected by the entry's `queue_name`, testing the match
arms in source order (`"corrupt"` counts as `bounce`; parse failures and
unrecognized names count nowhere). -/
def countEntry (s : QueueSnapshot) (entry : Option (Option String)) :
    QueueSnapshot :=
  match entry with
  | none => s
  | some queueName =>
      if queueName = some "active" then
        { s with active := u32Mod (s.active + 1) }
      else if queueName = some "deferred" then
        { s with deferred := u32Mod (s.deferred + 1) }
      else if queueName = some "hold" then
        { s with hold := u32Mod (s.hold + 1) }
      else if queueName = some "bounce" ∨ queueName = some "corrupt" then
        { s with bounce := u32Mod (s.bounce + 1) }
      else s

/-- Whether a `postqueue -p` stdout line looks like a queue entry: longer
than 10 bytes and starting with an ASCII hex digit. -/
def isQueueLine (l : String) : Bool :=
  l.utf8ByteSize > 10 && (l.toList.head?.map isAsciiHexDigit).getD false

/-- Function `collect_queue_stats` from `queue_monitor.rs`, over the tool-outcome
oracle. -/
def collect_queue_stats (now : Nat) (out : PostqueueOutcome) : QueueSnapshot :=
  let snapshot : QueueSnapshot :=
    { timestamp := now, active := 0, deferred := 0, hold := 0, bounce := 0,
      total := 0 }
  match out with
  | .jsonOk entries =>
      let s := entries.foldl countEntry snapshot
      { s with total := u32Mod (s.active + s.deferred + s.hold + s.bounce) }
  | .jsonFail fallbackLines =>
      match fallbackLines with
      | some lines =>
          let queue_lines := (lines.filter isQueueLine).length
          { snapshot with total := u32Mod queue_lines,
                          active := u32Mod queue_lines }
      | none => snapshot
  | .notAvailable => snapshot

/-- Method `QueueMonitor::check_once` (a one-off `collect_queue_stats`). -/
def QueueMonitor.check_once (now : Nat) (out : PostqueueOutcome) :
    QueueSnapshot :=
  collect_queue_stats now out

/-! ## `mc-actors/src/stats_collector.rs` (data model only)

`f32` / `f64` readings are carried as opaque IEEE-754 bit patterns (`Nat`);
the embedded code stores them but never computes with them. -/

/-- Model of `CpuStats` from `stats_collector.rs`. -/
structure CpuStats where
  usage_percent : Nat
  per_core : List Nat
  deriving DecidableEq, Repr

/-- Model of `MemoryStats` from `stats_collector.rs`. -/
structure MemoryStats where
  total_bytes : Nat
  used_bytes : Nat
  available_bytes : Nat
  swap_total_bytes : Nat
  swap_used_bytes : Nat
  deriving DecidableEq, Repr

/-- Model of `DiskStats` from `stats_collector.rs`. -/
structure DiskStats where
  mount_point : String
  total_bytes : Nat
  used_bytes : Nat
  available_bytes : Nat
  deriving DecidableEq, Repr

/-- Model of `LoadAverage` from `stats_collector.rs`. -/
structure LoadAverage where
  one : Nat
  five : Nat
  fifteen : Nat
  deriving DecidableEq, Repr

/-- Model of `SystemSnapshot` from `stats_collector.rs`. -/
structure SystemSnapshot where
  timestamp : Nat
  cpu : CpuStats
  memory : MemoryStats
  disks : List DiskStats
  load_avg : LoadAverage
  deriving DecidableEq, Repr

/-! ## `mc-actors/src/state_manager.rs`

Every mutating method of `StateManager` acquires the single `RwLock` write
guard for its whole body, so each method is one atomic step on the
`AggregatedState`; the methods are embedded as pure state transformers and
an interleaved execution as a fold over a list of such atomic operations. -/

/-- Model of `ServiceState` from `state_manager.rs`. -/
structure ServiceState where
  name : String
  active : Bool
  status : String
  pid : Option Nat
  memory_bytes : Option Nat
  uptime_seconds : Option Nat
  deriving DecidableEq, Repr

/-- Model of `AggregatedState` from `state_manager.rs`. -/
structure AggregatedState where
  services : List ServiceState
  latest_stats : Option SystemSnapshot
  latest_queue : Option QueueSnapshot
  recent_logs : List LogEntry
  last_updated : Nat
  deriving DecidableEq, Repr

/-- Default state `AggregatedState::default()` (`last_updated = Utc::now()`). -/
def AggregatedState.default (now : Nat) : AggregatedState :=
  { services := [], latest_stats := none, latest_queue := none,
    recent_logs := [], last_updated := now }

namespace StateManager

/-- Method `StateManager::update_stats`. -/
def update_stats (st : AggregatedState) (snapshot : SystemSnapshot)
    (now : Nat) : AggregatedState :=
  { st with latest_stats := some snapshot, last_updated := now }

/-- Method `StateManager::update_queue`. -/
def update_queue (st : AggregatedState) (snapshot : QueueSnapshot)
    (now : Nat) : AggregatedState :=
  { st with latest_queue := some snapshot, last_updated := now }

/-- Method `StateManager::add_log`: push the entry, then drain the oldest
`len - 1000` entries whenever the buffer exceeds 1000. -/
def add_log (st : AggregatedState) (entry : LogEntry) (now : Nat) :
    AggregatedState :=
  let logs := st.recent_logs ++ [entry]
  let logs := if logs.length > 1000 then logs.drop (logs.length - 1000)
    else logs
  { st with recent_logs := logs, last_updated := now }

/-- Method `StateManager::update_services`. -/
def update_services (st : AggregatedState) (services : List ServiceState)
    (now : Nat) : AggregatedState :=
  { st with services := services, last_updated := now }

end StateManager

/-- One atomic `StateManager` operation (method call with its arguments and
the instant `Utc::now()` observed inside it). -/
inductive AggOp where
  | updateStats (snapshot : SystemSnapshot) (now : Nat)
  | updateQueue (snapshot : QueueSnapshot) (now : Nat)
  | updateServices (services : List ServiceState) (now : Nat)
  | addLog (entry : LogEntry) (now : Nat)

/-- Apply one atomic operation. -/
def applyOp (st : AggregatedState) : AggOp → AggregatedState
  | .updateStats snapshot now => StateManager.update_stats st snapshot now
  | .updateQueue snapshot now => StateManager.update_queue st snapshot now
  | .updateServices services now =>
      StateManager.update_services st services now
  | .addLog entry now => StateManager.add_log st entry now

/-- Apply a finite sequence of atomic operations in order. -/
def applyOps (st : AggregatedState) (ops : List AggOp) : AggregatedState :=
  ops.foldl applyOp st

/-- The log entries added by a sequence of operations, in insertion order. -/
def loggedEntries (ops : List AggOp) : List LogEntry :=
  ops.filterMap fun op =>
    match op with
    | .addLog entry _ => some entry
    | _ => none

/-! ## `mc-core/src/security/input.rs`

The validators are anchored-regex allowlists.  Each regex is embedded
structurally: because none of the repeated sub-patterns can contain the
separator character (`'.'` in a domain label, `'@'` in the local/domain
split), the anchored regex matches exactly when the split at that separator
produces fields matching the sub-patterns, which is what the Lean
definitions check.  Rust `str::len` is the UTF-8 byte length, embedded as
`String.utf8ByteSize`; the Unicode character classes of
`validate_password` are modelled on the ASCII range. -/

/-- Model of `ValidationError` from `input.rs`. -/
inductive ValidationError where
  | InvalidDomain (s : String)
  | InvalidEmail (s : String)
  | InvalidDatabaseName (s : String)
  | InvalidUsername (s : String)
  | InvalidHostname (s : String)
  | InvalidPathComponent (s : String)
  | TooLong (max actual : Nat)
  | ForbiddenCharacters (s : String)
  | WeakPassword
  deriving DecidableEq, Repr

/-- The `thiserror` `Display` rendering of a `ValidationError`. -/
def ValidationError.render : ValidationError → String
  | .InvalidDomain s => "Invalid domain name: " ++ s
  | .InvalidEmail s => "Invalid email address: " ++ s
  | .InvalidDatabaseName s => "Invalid database name: " ++ s
  | .InvalidUsername s => "Invalid username: " ++ s
  | .InvalidHostname s => "Invalid hostname: " ++ s
  | .InvalidPathComponent s => "Invalid path component: " ++ s
  | .TooLong max actual =>
      s!"Input too long: max {max} chars, got {actual}"
  | .ForbiddenCharacters s => "Input contains forbidden characters: " ++ s
  | .WeakPassword => "Password does not meet requirements"

/-- The regex class `[a-zA-Z0-9-]` (interior of a DNS label). -/
def isLabelChar (c : Char) : Bool :=
  isAlnumAscii c || c = '-'

/-- One DNS label: `[a-zA-Z0-9]([a-zA-Z0-9-]{0,61}[a-zA-Z0-9])?` —
a single alphanumeric character, or 2–63 characters with alphanumeric
first and last characters and `[a-zA-Z0-9-]` in between. -/
def matchesLabel (l : List Char) : Bool :=
  match l with
  | [] => false
  | [c] => isAlnumAscii c
  | c :: cs =>
      isAlnumAscii c && l.length ≤ 63 &&
      (match cs.getLast? with
       | some d => isAlnumAscii d
       | none => false) &&
      cs.dropLast.all isLabelChar

/-- Regex `DOMAIN_RE` (`^L(\.L)*\.[a-zA-Z]{2,}$` with `L` a DNS label): the
dot-split has at least two fields, the final field is two or more ASCII
letters, and every earlier field is a label. -/
def matchesDomainChars (s : List Char) : Bool :=
  let segs := s.splitOn (Char.ofNat 46)
  match segs.getLast? with
  | none => false
  | some tld =>
      segs.length ≥ 2 && tld.length ≥ 2 && tld.all Char.isAlpha &&
      segs.dropLast.all matchesLabel

/-- The `EMAIL_RE` local-part class
`[a-zA-Z0-9.!#$%&'*+/=?^_`{|}~-]` (the apostrophe, backtick and brace
members are written by code point). -/
def isEmailLocalChar (c : Char) : Bool :=
  isAlnumAscii c ||
  ['.', '!', '#', '$', '%', '&', '*', '+', '/', '=', '?', '^', '_', '|',
    '~', '-'].contains c ||
  c = Char.ofNat 39 || c = Char.ofNat 96 || c = Char.ofNat 123 ||
  c = Char.ofNat 125

/-- Regex `EMAIL_RE`: one `'@'` splitting a non-empty local part drawn from the
local-part class from a domain matching the domain pattern. -/
def matchesEmailChars (s : List Char) : Bool :=
  match s.splitOn (Char.ofNat 64) with
  | [localPart, domainPart] =>
      localPart.length ≥ 1 && localPart.all isEmailLocalChar &&
      matchesDomainChars domainPart
  | _ => false

/-- The regex class `[a-zA-Z0-9.-]` (interior of `HOSTNAME_RE`). -/
def isHostnameMidChar (c : Char) : Bool :=
  isAlnumAscii c || c = Char.ofNat 46 || c = '-'

/-- Regex `HOSTNAME_RE` (`^[a-zA-Z0-9]([a-zA-Z0-9.-]{0,253}[a-zA-Z0-9])?$`):
one alphanumeric character, or alphanumeric first and last characters
around at most 253 characters of `[a-zA-Z0-9.-]`. -/
def matchesHostnameChars (s : List Char) : Bool :=
  match s with
  | [] => false
  | [c] => isAlnumAscii c
  | c :: cs =>
      isAlnumAscii c &&
      (match cs.getLast? with
       | some d => isAlnumAscii d
       | none => false) &&
      cs.dropLast.length ≤ 253 && cs.dropLast.all isHostnameMidChar

/-- Validator `validate_domain` from `input.rs`. -/
def validate_domain (domain : String) : Except ValidationError String :=
  if domain.utf8ByteSize > 253 then
    .error (.TooLong 253 domain.utf8ByteSize)
  else if matchesDomainChars domain.toList then .ok domain
  else .error (.InvalidDomain domain)

/-- Validator `validate_email` from `input.rs`. -/
def validate_email (email : String) : Except ValidationError String :=
  if email.utf8ByteSize > 254 then
    .error (.TooLong 254 email.utf8ByteSize)
  else if matchesEmailChars email.toList then .ok email
  else .error (.InvalidEmail email)

/-- Validator `validate_hostname` from `input.rs`. -/
def validate_hostname (hostname : String) : Except ValidationError String :=
  if hostname.utf8ByteSize > 253 then
    .error (.TooLong 253 hostname.utf8ByteSize)
  else if matchesHostnameChars hostname.toList then .ok hostname
  else .error (.InvalidHostname hostname)

/-- Validator `validate_password` from `input.rs` (character classes on the ASCII
range). -/
def validate_password (password : String) : Except ValidationError Unit :=
  if password.utf8ByteSize < 12 then .error .WeakPassword
  else
    let has_upper := password.toList.any Char.isUpper
    let has_lower := password.toList.any Char.isLower
    let has_digit := password.toList.any Char.isDigit
    let has_special := password.toList.any fun c => !c.isAlphanum
    if has_upper && has_lower && has_digit && has_special then .ok ()
    else .error .WeakPassword

/-! ## `mc-core/src/install/orchestrator.rs`

The twelve `step_*` methods orchestrate external commands; their outcomes
are an oracle `handlers : String → Except InstallError String` giving, per
step name, the `Result<String, InstallError>` the corresponding method
returns in the run being modelled.  `step_system_check`'s threshold logic
on the values parsed from `df`/`free` is additionally embedded concretely
(it is the failure the spec's walk-through simulates). -/

/-- Model of `StepStatus` from `orchestrator.rs`. -/
inductive StepStatus where
  | Pending
  | InProgress
  | Completed
  | Failed (message : String)
  deriving DecidableEq, Repr

/-- Model of `StepState` from `orchestrator.rs` (`progress_percent` is a `u8`). -/
structure StepState where
  name : String
  label : String
  status : StepStatus
  progress_percent : Nat
  message : String
  deriving DecidableEq, Repr

/-- A placeholder `StepState` used as the default of `List.getD` lookups;
every lookup is guarded to be in bounds, so it is never produced. -/
def dummyStep : StepState :=
  { name := "", label := "", status := .Pending, progress_percent := 0,
    message := "" }

/-- Model of `InstallConfig` from `orchestrator.rs`. -/
structure InstallConfig where
  hostname : String
  mail_domain : String
  admin_email : String
  admin_password : String
  php_version : String
  deriving DecidableEq, Repr

/-- Model of `InstallError` from `orchestrator.rs` (the `Io` payload is the rendered
`std::io::Error`). -/
inductive InstallError where
  | StepFailed (step : String) (message : String)
  | CommandFailed (message : String)
  | Io (message : String)
  deriving DecidableEq, Repr

/-- The `thiserror` `Display` rendering of an `InstallError`
(`e.to_string()`). -/
def InstallError.toMessage : InstallError → String
  | .StepFailed step message => "Step failed: " ++ step ++ " - " ++ message
  | .CommandFailed message => "Command failed: " ++ message
  | .Io message => "IO error: " ++ message

/-- The fixed `(name, label)` pipeline of `InstallOrchestrator::new`. -/
def step_names : List (String × String) :=
  [("system_check", "System Check"),
   ("php_install", "PHP Installation"),
   ("core_packages", "Core Packages"),
   ("domain_config", "Domain Configuration"),
   ("database_setup", "Database Setup"),
   ("ssl_certificates", "SSL Certificates"),
   ("service_config", "Service Configuration"),
   ("dkim_setup", "DKIM Setup"),
   ("permissions", "Permissions"),
   ("enable_services", "Enable Services"),
   ("admin_account", "Admin Account"),
   ("summary", "Summary")]

/-- An oracle for the per-step externally-effectful methods. -/
def StepHandlers : Type := String → Except InstallError String

/-- Model of `InstallOrchestrator` (a config and the mutable step list). -/
structure InstallOrchestrator where
  config : InstallConfig
  steps : List StepState

/-- Constructor `InstallOrchestrator::new`: every step starts `Pending` at progress 0
with an empty message. -/
def InstallOrchestrator.new (config : InstallConfig) : InstallOrchestrator :=
  { config := config
    steps := step_names.map fun p =>
      { name := p.1, label := p.2, status := .Pending,
        progress_percent := 0, message := "" } }

/-- Step method `step_system_check`, given the OS name and the values parsed from
`df -BG --output=avail /` and `free -m` (the parse fallback is 0): hard
failure below 10 GB of available disk or 1024 MB of total RAM. -/
def step_system_check (os_name : String) (available_gb total_mb : Nat) :
    Except InstallError String :=
  if available_gb < 10 then
    .error (.StepFailed "system_check"
      s!"Insufficient disk space: {available_gb}GB available, minimum 10GB required")
  else if total_mb < 1024 then
    .error (.StepFailed "system_check"
      s!"Insufficient RAM: {total_mb}MB available, minimum 1024MB required")
  else
    .ok s!"System check passed. OS: {os_name}, Disk: {available_gb}GB free, RAM: {total_mb}MB"

/-- The terminal `Completed` form a step takes on handler success:
progress 100 and the handler's result message. -/
def completedStep (s : StepState) (msg : String) : StepState :=
  { s with status := .Completed, progress_percent := 100, message := msg }

/-- The terminal `Failed` form a step takes on handler error `e`:
`Failed(e.to_string())` at progress 0 with the rendered error as
message. -/
def failedStep (s : StepState) (e : InstallError) : StepState :=
  { s with
      status := .Failed e.toMessage,
      progress_percent := 0,
      message := e.toMessage }

/-- The `match self.steps[i].name.as_str()` dispatch shared by `run_all`
and `run_step`: one arm per pipeline name, calling the corresponding
`step_*` method (the oracle), and `_ => Ok("Unknown step")`. -/
def dispatchStep (handlers : StepHandlers) (name : String) :
    Except InstallError String :=
  if (step_names.map Prod.fst).contains name then handlers name
  else .ok "Unknown step"

/-- Method `InstallOrchestrator::validate_config`: hostname, then mail domain,
then admin email, then password strength, short-circuiting at the first
failure. -/
def InstallOrchestrator.validate_config (config : InstallConfig) :
    Except InstallError Unit :=
  match validate_hostname config.hostname with
  | .error e =>
      .error (.StepFailed "validation" ("Invalid hostname: " ++ e.render))
  | .ok _ =>
  match validate_domain config.mail_domain with
  | .error e =>
      .error (.StepFailed "validation" ("Invalid mail domain: " ++ e.render))
  | .ok _ =>
  match validate_email config.admin_email with
  | .error e =>
      .error (.StepFailed "validation" ("Invalid admin email: " ++ e.render))
  | .ok _ =>
  match validate_password config.admin_password with
  | .error e =>
      .error (.StepFailed "validation" ("Weak admin password: " ++ e.render))
  | .ok _ => .ok ()

/-- The step loop of `run_all` over the remaining steps.  Returns the final
step list, the trace of `on_progress` callback arguments (each `&StepState`
snapshot, in invocation order), and the error that stopped the loop, if
any.  Per step: set `InProgress` at progress 0, notify, dispatch; on `Ok`
set `Completed` at progress 100 with the result message and notify; on
`Err` set `Failed(e.to_string())`, notify, and stop. -/
def runStepsLoop (handlers : StepHandlers) :
    List StepState → List StepState × List StepState × Option InstallError
  | [] => ([], [], none)
  | s :: rest =>
      let sIn : StepState := { s with status := .InProgress,
                                      progress_percent := 0 }
      match dispatchStep handlers s.name with
      | .ok msg =>
          let sDone : StepState := { sIn with status := .Completed,
                                              progress_percent := 100,
                                              message := msg }
          let out := runStepsLoop handlers rest
          (sDone :: out.1, sIn :: sDone :: out.2.1, out.2.2)
      | .error e =>
          let sFail : StepState := { sIn with
            status := .Failed (InstallError.toMessage e),
            message := InstallError.toMessage e }
          (sFail :: rest, [sIn, sFail], some e)

/-- Method `InstallOrchestrator::run_all`: validate the whole config first
(returning the validation error with no step touched and no callback
invoked), then run the steps in order through `runStepsLoop`. -/
def InstallOrchestrator.run_all (handlers : StepHandlers)
    (o : InstallOrchestrator) :
    InstallOrchestrator × List StepState × Except InstallError Unit :=
  match InstallOrchestrator.validate_config o.config with
  | .error e => (o, [], .error e)
  | .ok _ =>
      let out := runStepsLoop handlers o.steps
      ({ o with steps := out.1 }, out.2.1,
       match out.2.2 with
       | some e => .error e
       | none => .ok ())

/-- Method `InstallOrchestrator::run_step(index)`: reject an out-of-bounds index
with `StepFailed {step: "index_{index}", message: "Step index out of
bounds"}` without touching any step; otherwise run exactly that step
(no config validation, no progress callback) and return its terminal
state. -/
def InstallOrchestrator.run_step (handlers : StepHandlers)
    (o : InstallOrchestrator) (index : Nat) :
    InstallOrchestrator × Except InstallError StepState :=
  if index < o.steps.length then
    let s := o.steps.getD index dummyStep
    let sIn : StepState := { s with status := .InProgress,
                                    progress_percent := 0 }
    match dispatchStep handlers s.name with
    | .ok msg =>
        let sDone : StepState := { sIn with status := .Completed,
                                            progress_percent := 100,
                                            message := msg }
        ({ o with steps := o.steps.set index sDone }, .ok sDone)
    | .error e =>
        let sFail : StepState := { sIn with
          status := .Failed (InstallError.toMessage e),
          message := InstallError.toMessage e }
        ({ o with steps := o.steps.set index sFail }, .error e)
  else
    (o, .error (.StepFailed ("index_" ++ toString index)
      "Step index out of bounds"))

/-! ## `mc-services/src/install.rs` (resume) -/

/-- The `for i in start_from..total` loop of
`InstallService::resume_install`: call `run_step(i)` for each index in
turn, breaking at the first error.  Returns the indices for which
`run_step` was invoked, in invocation order, and the final orchestrator. -/
def resumeLoop (handlers : StepHandlers) :
    InstallOrchestrator → List Nat → List Nat × InstallOrchestrator
  | o, [] => ([], o)
  | o, i :: rest =>
      match InstallOrchestrator.run_step handlers o i with
      | (o', .ok _) =>
          let out := resumeLoop handlers o' rest
          (i :: out.1, out.2)
      | (o', .error _) => ([i], o')

/-- Method `InstallService::resume_install`: build a fresh orchestrator and run
`run_step` for indices `completed_steps.len() .. total`, stopping at the
first failure. -/
def InstallService.resume_install (handlers : StepHandlers)
    (config : InstallConfig) (completed_steps : List String) :
    List Nat × InstallOrchestrator :=
  let o := InstallOrchestrator.new config
  let total := o.steps.length
  let start_from := completed_steps.length
  resumeLoop handlers o (List.range' start_from (total - start_from))

/-! ## Spec-side predicates and concrete fixtures

Definitions below are not translations of repository code: they state, in
the spec's vocabulary, the shapes the theorems compare the code against,
plus concrete configurations and handler oracles used to instantiate
theorems with hypotheses. -/

/-- The spec's Error keyword set: the lowercased line contains `"error"`,
`"fatal"` or `"panic"`. -/
def hasErrorKeyword (line : String) : Bool :=
  containsSub (lowerAscii line) "error" ||
  containsSub (lowerAscii line) "fatal" ||
  containsSub (lowerAscii line) "panic"

/-- The spec's Warning keyword set: the lowercased line contains `"warn"`
or `"reject"`. -/
def hasWarningKeyword (line : String) : Bool :=
  containsSub (lowerAscii line) "warn" ||
  containsSub (lowerAscii line) "reject"

/-- The spec's Debug keyword: the lowercased line contains `"debug"`. -/
def hasDebugKeyword (line : String) : Bool :=
  containsSub (lowerAscii line) "debug"

/-- The invocation sequence the spec ascribes to resume: attempt the given
indices in order, keeping each index attempted and stopping right after
the first index whose step fails. -/
def invokedUntilError (ok : Nat → Bool) : List Nat → List Nat
  | [] => []
  | i :: rest => if ok i then i :: invokedUntilError ok rest else [i]

/-- The spec walk-through's valid configuration
(`hostname="mail.example.com", mail_domain="example.com"`, a well-formed
admin email and a strong password). -/
def exampleConfig : InstallConfig :=
  { hostname := "mail.example.com"
    mail_domain := "example.com"
    admin_email := "admin@example.com"
    admin_password := "Str0ng!Pass#2024"
    php_version := "8.2" }

/-- Variant of `exampleConfig` with the spec's invalid admin email `"not-an-email"`. -/
def invalidEmailConfig : InstallConfig :=
  { exampleConfig with admin_email := "not-an-email" }

/-- A handler oracle on which every step method succeeds. -/
def okHandlers : StepHandlers := fun _ => Except.ok "done"

/-- A handler oracle simulating the spec walk-through's `system_check`
failure: `df` reports 5 GB available (below the 10 GB threshold), so
`step_system_check` fails with the "Insufficient disk space" message;
every other step method would succeed. -/
def sysCheckFailHandlers : StepHandlers := fun name =>
  if name = "system_check" then step_system_check "Ubuntu 22.04" 5 2048
  else Except.ok "done"

/-! ## Theorems -/

/-- C6: Log level classification — for every input line, classification
yields `Error` when the lowercased line contains `"error"`, `"fatal"` or
`"panic"`; otherwise `Warning` when it contains `"warn"` or `"reject"`;
otherwise `Debug` when it contains `"debug"`; otherwise `Info`.  The Error
keyword set takes precedence over the Warning set, which takes precedence
over `"debug"`. -/
theorem log_level_keyword_precedence (line : String) :
    (hasErrorKeyword line = true → LogLevel.from_line line = .Error) ∧
    (hasErrorKeyword line = false → hasWarningKeyword line = true →
      LogLevel.from_line line = .Warning) ∧
    (hasErrorKeyword line = false → hasWarningKeyword line = false →
      hasDebugKeyword line = true → LogLevel.from_line line = .Debug) ∧
    (hasErrorKeyword line = false → hasWarningKeyword line = false →
      hasDebugKeyword line = false → LogLevel.from_line line = .Info) := by
  unfold hasErrorKeyword hasWarningKeyword hasDebugKeyword LogLevel.from_line
  refine ⟨?_, ?_, ?_, ?_⟩ <;> intros <;> simp_all

/-- Witness for C6: one concrete line from each class. -/
theorem log_level_keyword_precedence_witness :
    (hasErrorKeyword "kernel: PANIC at boot" = true ∧
      LogLevel.from_line "kernel: PANIC at boot" = .Error) ∧
    (hasErrorKeyword "smtp reject: spam detected" = false ∧
      hasWarningKeyword "smtp reject: spam detected" = true ∧
      LogLevel.from_line "smtp reject: spam detected" = .Warning) ∧
    (hasDebugKeyword "imap debug trace" = true ∧
      LogLevel.from_line "imap debug trace" = .Debug) ∧
    LogLevel.from_line "connection established" = .Info :=
  ⟨⟨by decide, (log_level_keyword_precedence "kernel: PANIC at boot").1
      (by decide)⟩,
   ⟨by decide, by decide,
    (log_level_keyword_precedence "smtp reject: spam detected").2.1
      (by decide) (by decide)⟩,
   ⟨by decide, (log_level_keyword_precedence "imap debug trace").2.2.1
      (by decide) (by decide) (by decide)⟩,
   (log_level_keyword_precedence "connection established").2.2.2
      (by decide) (by decide) (by decide)⟩

/-- C9: `tail_lines` is total — on a missing (or unopenable) path it
returns the empty sequence for every `n`, never an error; on an existing
file it returns entries whose messages are exactly the last `n` lines (all
of them when fewer than `n` exist), ordered oldest to newest. -/
theorem tail_lines_missing_file_and_last_n :
    (∀ now n, LogWatcher.tail_lines none now n = []) ∧
    (∀ (lines : List String) now n,
      (LogWatcher.tail_lines (some lines) now n).map LogEntry.message =
        lastN n lines ∧
      (LogWatcher.tail_lines (some lines) now n).length =
        min n lines.length) := by
  constructor
  · intro now n
    rfl
  · intro lines now n
    constructor
    · by_cases h : lines.length > n
      · simp [LogWatcher.tail_lines, lastN, h, List.map_map,
          Function.comp_def]
      · have h0 : lines.length - n = 0 := by omega
        simp [LogWatcher.tail_lines, lastN, h, h0, List.map_map,
          Function.comp_def]
    · by_cases h : lines.length > n
      · simp [LogWatcher.tail_lines, h]
        omega
      · simp [LogWatcher.tail_lines, h]
        omega

/-- C8: atomic replace-and-stamp with frame — `update_stats` replaces only
`latest_stats` and `last_updated`, leaving `services`, `latest_queue` and
`recent_logs` untouched, and likewise `update_queue` and
`update_services` for their fields.  Each method performs the field
replacement and the `last_updated` stamp inside one exclusive write-lock
acquisition, embedded as a single atomic state transformer, so every
post-state a reader can observe has the field and the stamp updated
together. -/
theorem update_methods_replace_and_stamp (st : AggregatedState)
    (snapshot : SystemSnapshot) (qsnap : QueueSnapshot)
    (services : List ServiceState) (now : Nat) :
    ((StateManager.update_stats st snapshot now).latest_stats =
        some snapshot ∧
     (StateManager.update_stats st snapshot now).last_updated = now ∧
     (StateManager.update_stats st snapshot now).services = st.services ∧
     (StateManager.update_stats st snapshot now).latest_queue =
        st.latest_queue ∧
     (StateManager.update_stats st snapshot now).recent_logs =
        st.recent_logs) ∧
    ((StateManager.update_queue st qsnap now).latest_queue = some qsnap ∧
     (StateManager.update_queue st qsnap now).last_updated = now ∧
     (StateManager.update_queue st qsnap now).services = st.services ∧
     (StateManager.update_queue st qsnap now).latest_stats =
        st.latest_stats ∧
     (StateManager.update_queue st qsnap now).recent_logs =
        st.recent_logs) ∧
    ((StateManager.update_services st services now).services = services ∧
     (StateManager.update_services st services now).last_updated = now ∧
     (StateManager.update_services st services now).latest_stats =
        st.latest_stats ∧
     (StateManager.update_services st services now).latest_queue =
        st.latest_queue ∧
     (StateManager.update_services st services now).recent_logs =
        st.recent_logs) :=
  ⟨⟨rfl, rfl, rfl, rfl, rfl⟩, ⟨rfl, rfl, rfl, rfl, rfl⟩,
   ⟨rfl, rfl, rfl, rfl, rfl⟩⟩

/-- C10: `run_step` on any index at or beyond the number of steps —
starting from an arbitrary orchestrator pre-state, mid-run or not (for
the pipeline orchestrator the step count is 12, so this is every
`index ≥ 12`) — returns the `StepFailed` error with message
`"Step index out of bounds"` together with the pre-call orchestrator
itself: every step's status, progress and message are exactly as they
were before the call. -/
theorem run_step_out_of_bounds_rejected (handlers : StepHandlers)
    (o : InstallOrchestrator) (index : Nat)
    (hidx : o.steps.length ≤ index) :
    InstallOrchestrator.run_step handlers o index =
      (o, .error (.StepFailed ("index_" ++ toString index)
        "Step index out of bounds")) := by
  unfold InstallOrchestrator.run_step
  rw [if_neg (Nat.not_lt.mpr hidx)]

/-- Witness for C10 at index 12 on a mid-run pre-state: an orchestrator
whose step 0 already ran to `Completed` (so preservation is
distinguishable from a reset to the initial all-`Pending` state). -/
theorem run_step_out_of_bounds_rejected_witness :
    ((InstallOrchestrator.run_step okHandlers
        (InstallOrchestrator.new exampleConfig) 0).1.steps.length ≤ 12) ∧
    (((InstallOrchestrator.run_step okHandlers
        (InstallOrchestrator.new exampleConfig) 0).1.steps.getD 0
          dummyStep).status = .Completed) ∧
    InstallOrchestrator.run_step okHandlers
        (InstallOrchestrator.run_step okHandlers
          (InstallOrchestrator.new exampleConfig) 0).1 12 =
      ((InstallOrchestrator.run_step okHandlers
          (InstallOrchestrator.new exampleConfig) 0).1,
       .error (.StepFailed ("index_" ++ toString 12)
         "Step index out of bounds")) :=
  ⟨by decide, by decide,
   run_step_out_of_bounds_rejected okHandlers
     (InstallOrchestrator.run_step okHandlers
       (InstallOrchestrator.new exampleConfig) 0).1 12 (by decide)⟩

/-- One NDJSON counting step keeps every `u32` counter in range. -/
theorem countEntry_preserves_bounds {s : QueueSnapshot}
    (h : s.active < 4294967296 ∧ s.deferred < 4294967296 ∧
      s.hold < 4294967296 ∧ s.bounce < 4294967296)
    (e : Option (Option String)) :
    (countEntry s e).active < 4294967296 ∧
    (countEntry s e).deferred < 4294967296 ∧
    (countEntry s e).hold < 4294967296 ∧
    (countEntry s e).bounce < 4294967296 := by
  obtain ⟨h1, h2, h3, h4⟩ := h
  rcases e with _ | qn
  · exact ⟨h1, h2, h3, h4⟩
  · simp only [countEntry]
    split_ifs <;> refine ⟨?_, ?_, ?_, ?_⟩ <;> (try simp [u32Mod]) <;>
      omega

/-- The whole NDJSON counting loop keeps every counter in range. -/
theorem foldl_countEntry_bounds (entries : List (Option (Option String)))
    {s : QueueSnapshot}
    (h : s.active < 4294967296 ∧ s.deferred < 4294967296 ∧
      s.hold < 4294967296 ∧ s.bounce < 4294967296) :
    (entries.foldl countEntry s).active < 4294967296 ∧
    (entries.foldl countEntry s).deferred < 4294967296 ∧
    (entries.foldl countEntry s).hold < 4294967296 ∧
    (entries.foldl countEntry s).bounce < 4294967296 := by
  induction entries generalizing s with
  | nil => exact h
  | cons e rest ih => exact ih (countEntry_preserves_bounds h e)

/-- C7: queue snapshot sum invariant — in the structured (NDJSON) mode,
the plain-text fallback mode, and the tool-unavailable zeroed mode alike,
`total` equals the `u32` sum `active + deferred + hold + bounce` (all five
counters being in `u32` range, the modular sum is the `u32` sum computed
by the code). -/
theorem queue_snapshot_total_is_sum (now : Nat) (out : PostqueueOutcome) :
    (collect_queue_stats now out).total =
      u32Mod ((collect_queue_stats now out).active +
        (collect_queue_stats now out).deferred +
        (collect_queue_stats now out).hold +
        (collect_queue_stats now out).bounce) ∧
    (collect_queue_stats now out).active < 4294967296 ∧
    (collect_queue_stats now out).deferred < 4294967296 ∧
    (collect_queue_stats now out).hold < 4294967296 ∧
    (collect_queue_stats now out).bounce < 4294967296 ∧
    (collect_queue_stats now out).total < 4294967296 := by
  rcases out with entries | fallbackLines | _
  · have hb := foldl_countEntry_bounds entries
      (s := { timestamp := now, active := 0, deferred := 0, hold := 0,
              bounce := 0, total := 0 }) (by norm_num)
    exact ⟨rfl, hb.1, hb.2.1, hb.2.2.1, hb.2.2.2,
      Nat.mod_lt _ (by norm_num)⟩
  · rcases fallbackLines with _ | lines
    · refine ⟨rfl, ?_, ?_, ?_, ?_, ?_⟩ <;>
        (show (0 : Nat) < 4294967296; norm_num)
    · refine ⟨?_, ?_, ?_, ?_, ?_, ?_⟩ <;>
        simp [collect_queue_stats, u32Mod] <;> omega
  · refine ⟨rfl, ?_, ?_, ?_, ?_, ?_⟩ <;>
      (show (0 : Nat) < 4294967296; norm_num)

/-- Unfolding of `applyOps` on a cons. -/
theorem applyOps_cons (st : AggregatedState) (op : AggOp)
    (ops : List AggOp) :
    applyOps st (op :: ops) = applyOps (applyOp st op) ops := rfl

/-- The `lastN` truncation keeps at most `n` elements. -/
theorem lastN_length_le (n : Nat) (l : List α) : (lastN n l).length ≤ n := by
  simp [lastN]
  omega

/-- Truncation `lastN n` is `List.rtake n`, hence expressible through reversal. -/
theorem lastN_eq_reverse_take (n : Nat) (l : List α) :
    lastN n l = (l.reverse.take n).reverse :=
  List.rtake_eq_reverse_take_reverse (l := l) (n := n)

/-- Re-truncating after appending: taking the last `n` of
`lastN n l ++ m` is the same as taking the last `n` of `l ++ m`. -/
theorem lastN_append_lastN (n : Nat) (l m : List α) :
    lastN n (lastN n l ++ m) = lastN n (l ++ m) := by
  simp only [lastN_eq_reverse_take, List.reverse_append,
    List.reverse_reverse]
  rw [List.take_append_eq_append_take, List.take_append_eq_append_take,
    List.take_take, Nat.min_eq_left (Nat.sub_le _ _)]

/-- One `add_log` produces exactly the last 1000 of the extended insertion
sequence. -/
theorem add_log_recent_logs (st : AggregatedState) (entry : LogEntry)
    (now : Nat) :
    (StateManager.add_log st entry now).recent_logs =
      lastN 1000 (st.recent_logs ++ [entry]) := by
  show (if (st.recent_logs ++ [entry]).length > 1000 then
      (st.recent_logs ++ [entry]).drop
        ((st.recent_logs ++ [entry]).length - 1000)
    else st.recent_logs ++ [entry]) = _
  rcases Nat.lt_or_ge 1000 (st.recent_logs ++ [entry]).length with hl | hl
  · rw [if_pos hl]
    rfl
  · rw [if_neg (Nat.not_lt.mpr hl)]
    unfold lastN
    rw [Nat.sub_eq_zero_of_le hl, List.drop_zero]

/-- Running any operation sequence from an in-bound buffer leaves exactly
the last 1000 entries of the full insertion sequence. -/
theorem applyOps_recent_logs (ops : List AggOp) (st : AggregatedState)
    (h : st.recent_logs.length ≤ 1000) :
    (applyOps st ops).recent_logs =
      lastN 1000 (st.recent_logs ++ loggedEntries ops) := by
  induction ops generalizing st with
  | nil =>
      simp only [applyOps, List.foldl_nil, loggedEntries,
        List.filterMap_nil, List.append_nil, lastN,
        Nat.sub_eq_zero_of_le h, List.drop_zero]
  | cons op rest ih =>
      rw [applyOps_cons]
      cases op with
      | updateStats snap t =>
          rw [ih (applyOp st (AggOp.updateStats snap t)) h]
          rfl
      | updateQueue snap t =>
          rw [ih (applyOp st (AggOp.updateQueue snap t)) h]
          rfl
      | updateServices services t =>
          rw [ih (applyOp st (AggOp.updateServices services t)) h]
          rfl
      | addLog entry t =>
          have hstep : (applyOp st (AggOp.addLog entry t)).recent_logs =
              lastN 1000 (st.recent_logs ++ [entry]) :=
            add_log_recent_logs st entry t
          have hbound :
              (applyOp st (AggOp.addLog entry t)).recent_logs.length ≤
                1000 := by
            rw [hstep]
            exact lastN_length_le 1000 _
          rw [ih (applyOp st (AggOp.addLog entry t)) hbound, hstep,
            lastN_append_lastN]
          have hlog : loggedEntries (AggOp.addLog entry t :: rest) =
              entry :: loggedEntries rest := rfl
          rw [hlog]
          simp [List.append_assoc]

/-- C5: bounded log buffer with FIFO eviction — after any finite sequence
of aggregator operations starting from the default state, `recent_logs`
is exactly the last 1000 entries of the insertion sequence of all
`add_log` calls, in insertion order (so it never exceeds 1000 entries and
the earliest-inserted entries are the ones evicted). -/
theorem recent_logs_bounded_fifo (ops : List AggOp) (now0 : Nat) :
    (applyOps (AggregatedState.default now0) ops).recent_logs =
      lastN 1000 (loggedEntries ops) ∧
    (applyOps (AggregatedState.default now0) ops).recent_logs.length ≤
      1000 := by
  have h := applyOps_recent_logs ops (AggregatedState.default now0)
    (by simp [AggregatedState.default])
  simp only [AggregatedState.default, List.nil_append] at h
  exact ⟨h, h ▸ lastN_length_le 1000 _⟩

/-- Every step of a freshly constructed orchestrator is `Pending` at
progress 0 with an empty message. -/
theorem new_steps_pending (config : InstallConfig) :
    ∀ s ∈ (InstallOrchestrator.new config).steps,
      s.status = .Pending ∧ s.progress_percent = 0 ∧ s.message = "" := by
  intro s hs
  simp only [InstallOrchestrator.new, List.mem_map] at hs
  obtain ⟨p, _, rfl⟩ := hs
  exact ⟨rfl, rfl, rfl⟩

/-- C2: Validation precedes all execution — for every `InstallConfig`
whose hostname, mail domain, admin email, or admin password fails its
validator, `run_all` returns a validation error with the orchestrator
exactly as constructed (every step still `Pending` at progress 0) and an
empty progress trace: no step handler runs and no callback fires. -/
theorem run_all_validates_before_any_step (config : InstallConfig)
    (handlers : StepHandlers)
    (hbad : (validate_hostname config.hostname).isOk = false ∨
      (validate_domain config.mail_domain).isOk = false ∨
      (validate_email config.admin_email).isOk = false ∨
      (validate_password config.admin_password).isOk = false) :
    ∃ e, InstallOrchestrator.run_all handlers
        (InstallOrchestrator.new config) =
      (InstallOrchestrator.new config, [], .error e) ∧
      ∀ s ∈ (InstallOrchestrator.new config).steps,
        s.status = .Pending ∧ s.progress_percent = 0 := by
  have hval : ∃ e, InstallOrchestrator.validate_config config = .error e := by
    unfold InstallOrchestrator.validate_config
    cases hh : validate_hostname config.hostname with
    | error e => exact ⟨_, rfl⟩
    | ok _ =>
      cases hd : validate_domain config.mail_domain with
      | error e => exact ⟨_, rfl⟩
      | ok _ =>
        cases he : validate_email config.admin_email with
        | error e => exact ⟨_, rfl⟩
        | ok _ =>
          cases hp : validate_password config.admin_password with
          | error e => exact ⟨_, rfl⟩
          | ok _ =>
            rcases hbad with hb | hb | hb | hb <;>
              simp [hh, hd, he, hp, Except.isOk, Except.toBool] at hb
  obtain ⟨e, he⟩ := hval
  refine ⟨e, ?_, fun s hs => ⟨(new_steps_pending config s hs).1,
    (new_steps_pending config s hs).2.1⟩⟩
  unfold InstallOrchestrator.run_all
  rw [show InstallOrchestrator.validate_config
      (InstallOrchestrator.new config).config = .error e from he]

/-- Witness for C2: the spec's `"not-an-email"` admin email. -/
theorem run_all_validates_before_any_step_witness :
    (validate_email invalidEmailConfig.admin_email).isOk = false ∧
    ∃ e, InstallOrchestrator.run_all okHandlers
        (InstallOrchestrator.new invalidEmailConfig) =
      (InstallOrchestrator.new invalidEmailConfig, [], .error e) ∧
      ∀ s ∈ (InstallOrchestrator.new invalidEmailConfig).steps,
        s.status = .Pending ∧ s.progress_percent = 0 :=
  ⟨by decide, run_all_validates_before_any_step invalidEmailConfig
    okHandlers (Or.inr (Or.inr (Or.inl (by decide))))⟩

/-- With a valid config, `run_all` runs the step loop. -/
theorem run_all_of_valid (handlers : StepHandlers)
    (o : InstallOrchestrator)
    (hval : InstallOrchestrator.validate_config o.config = .ok ()) :
    InstallOrchestrator.run_all handlers o =
      ({ o with steps := (runStepsLoop handlers o.steps).1 },
       (runStepsLoop handlers o.steps).2.1,
       match (runStepsLoop handlers o.steps).2.2 with
       | some e => .error e
       | none => .ok ()) := by
  unfold InstallOrchestrator.run_all
  rw [hval]

/-- If every dispatch before position `i` succeeds and the dispatch at
position `i` returns `e`, the step loop marks position `i`
`Failed(e.to_string())`, leaves every later position untouched, and stops
with `e`. -/
theorem runStepsLoop_first_error (handlers : StepHandlers) :
    ∀ (steps : List StepState) (i : Nat) (e : InstallError),
      i < steps.length →
      (∀ j, j < i →
        (dispatchStep handlers ((steps.getD j dummyStep).name)).isOk =
          true) →
      dispatchStep handlers ((steps.getD i dummyStep).name) = .error e →
      (runStepsLoop handlers steps).1.length = steps.length ∧
      (runStepsLoop handlers steps).1.getD i dummyStep =
        { steps.getD i dummyStep with
            status := .Failed e.toMessage,
            progress_percent := 0,
            message := e.toMessage } ∧
      (runStepsLoop handlers steps).2.2 = some e ∧
      ∀ j, i < j →
        (runStepsLoop handlers steps).1.getD j dummyStep =
          steps.getD j dummyStep := by
  intro steps
  induction steps with
  | nil =>
      intro i e hi
      exact absurd hi (Nat.not_lt_zero i)
  | cons s rest ih =>
      intro i e hi hok herr
      cases i with
      | zero =>
          have hd : dispatchStep handlers s.name = .error e := herr
          simp only [runStepsLoop, hd]
          refine ⟨by simp, by simp [List.getD_cons_zero], by trivial, ?_⟩
          intro j hj
          cases j with
          | zero => exact absurd hj (Nat.lt_irrefl 0)
          | succ j' => simp [List.getD_cons_succ]
      | succ i' =>
          have h0 := hok 0 (Nat.succ_pos i')
          simp only [List.getD_cons_zero] at h0
          have hd : ∃ msg, dispatchStep handlers s.name = .ok msg := by
            cases hds : dispatchStep handlers s.name with
            | ok m => exact ⟨m, rfl⟩
            | error e2 =>
                rw [hds] at h0
                simp [Except.isOk, Except.toBool] at h0
          obtain ⟨msg, hmsg⟩ := hd
          have hi' : i' < rest.length := by
            simp only [List.length_cons] at hi
            omega
          have hok' : ∀ j, j < i' →
              (dispatchStep handlers
                ((rest.getD j dummyStep).name)).isOk = true := by
            intro j hj
            have := hok (j + 1) (by omega)
            simpa [List.getD_cons_succ] using this
          have herr' :
              dispatchStep handlers ((rest.getD i' dummyStep).name) =
                .error e := by
            simpa [List.getD_cons_succ] using herr
          obtain ⟨ihlen, ihfail, iherr, ihrest⟩ :=
            ih i' e hi' hok' herr'
          simp only [runStepsLoop, hmsg]
          refine ⟨by simp [ihlen], ?_, iherr, ?_⟩
          · simpa [List.getD_cons_succ] using ihfail
          · intro j hj
            cases j with
            | zero => exact absurd hj (Nat.not_lt_zero _)
            | succ j' =>
                simp only [List.getD_cons_succ]
                exact ihrest j' (Nat.lt_of_succ_lt_succ hj)

/-- C1: Fail-fast pipeline halt — with a valid config, when step `i` is
the first whose handler returns an error `e`, `run_all` leaves step `i`
in `Failed(e.to_string())`, every step after `i` still `Pending`, and
returns `e`. -/
theorem run_all_fail_fast_halt (config : InstallConfig)
    (handlers : StepHandlers) (i : Nat) (e : InstallError)
    (hval : InstallOrchestrator.validate_config config = .ok ())
    (hi : i < 12)
    (hok : ∀ j, j < i → (dispatchStep handlers
      (((InstallOrchestrator.new config).steps.getD j
        dummyStep).name)).isOk = true)
    (herr : dispatchStep handlers
      (((InstallOrchestrator.new config).steps.getD i
        dummyStep).name) = .error e) :
    (InstallOrchestrator.run_all handlers
      (InstallOrchestrator.new config)).1.steps.length = 12 ∧
    ((InstallOrchestrator.run_all handlers
      (InstallOrchestrator.new config)).1.steps.getD i
        dummyStep).status = .Failed e.toMessage ∧
    (InstallOrchestrator.run_all handlers
      (InstallOrchestrator.new config)).2.2 = .error e ∧
    ∀ j, i < j → j < 12 →
      ((InstallOrchestrator.run_all handlers
        (InstallOrchestrator.new config)).1.steps.getD j
          dummyStep).status = .Pending := by
  have hlen12 : (InstallOrchestrator.new config).steps.length = 12 := rfl
  obtain ⟨l1, l2, l3, l4⟩ := runStepsLoop_first_error handlers
    (InstallOrchestrator.new config).steps i e (by rw [hlen12]; exact hi)
    hok herr
  rw [run_all_of_valid handlers (InstallOrchestrator.new config) hval]
  refine ⟨l1.trans hlen12, ?_, ?_, ?_⟩
  · show ((runStepsLoop handlers
        (InstallOrchestrator.new config).steps).1.getD i
          dummyStep).status = _
    rw [l2]
  · show (match (runStepsLoop handlers
        (InstallOrchestrator.new config).steps).2.2 with
      | some e => Except.error e
      | none => Except.ok ()) = Except.error e
    rw [l3]
  · intro j hj hj12
    show ((runStepsLoop handlers
        (InstallOrchestrator.new config).steps).1.getD j
          dummyStep).status = .Pending
    rw [l4 j hj]
    have hmem : (InstallOrchestrator.new config).steps.getD j dummyStep ∈
        (InstallOrchestrator.new config).steps := by
      have hj' : j < (InstallOrchestrator.new config).steps.length := by
        rw [hlen12]
        exact hj12
      have hge := List.getD_eq_getElem
        ((InstallOrchestrator.new config).steps) dummyStep hj'
      rw [hge]
      exact List.getElem_mem hj'
    exact (new_steps_pending config _ hmem).1

/-- Witness for C1: the spec walk-through — a simulated `system_check`
failure ("Insufficient disk space") on the valid example config fails step
0 and leaves the 11 subsequent steps `Pending`. -/
theorem run_all_fail_fast_halt_witness :
    dispatchStep sysCheckFailHandlers
      (((InstallOrchestrator.new exampleConfig).steps.getD 0
        dummyStep).name) =
      .error (.StepFailed "system_check"
        "Insufficient disk space: 5GB available, minimum 10GB required") ∧
    (InstallOrchestrator.run_all sysCheckFailHandlers
      (InstallOrchestrator.new exampleConfig)).1.steps.length = 12 ∧
    ((InstallOrchestrator.run_all sysCheckFailHandlers
      (InstallOrchestrator.new exampleConfig)).1.steps.getD 0
        dummyStep).status =
      .Failed (InstallError.toMessage (.StepFailed "system_check"
        "Insufficient disk space: 5GB available, minimum 10GB required")) ∧
    ∀ j, 0 < j → j < 12 →
      ((InstallOrchestrator.run_all sysCheckFailHandlers
        (InstallOrchestrator.new exampleConfig)).1.steps.getD j
          dummyStep).status = .Pending := by
  have h := run_all_fail_fast_halt exampleConfig sysCheckFailHandlers 0
    (.StepFailed "system_check"
      "Insufficient disk space: 5GB available, minimum 10GB required")
    rfl (by decide) (fun j hj => absurd hj (Nat.not_lt_zero j)) rfl
  exact ⟨rfl, h.1, h.2.1, h.2.2.2⟩

/-- The step-loop trace is exactly the (InProgress snapshot, terminal
snapshot) pair of every executed (non-`Pending`) step, in execution
order. -/
theorem runStepsLoop_trace (handlers : StepHandlers) :
    ∀ steps : List StepState,
      (∀ s ∈ steps, s.status = .Pending ∧ s.message = "") →
      (runStepsLoop handlers steps).2.1 =
        ((runStepsLoop handlers steps).1.filter
          (fun s => !(decide (s.status = StepStatus.Pending)))).flatMap
          (fun s =>
            [{ s with
                status := .InProgress,
                progress_percent := 0,
                message := "" }, s]) := by
  intro steps
  induction steps with
  | nil => intro _; rfl
  | cons s rest ih =>
      intro hinv
      obtain ⟨hsp, hsm⟩ := hinv s (List.mem_cons_self s rest)
      cases hd : dispatchStep handlers s.name with
      | ok msg =>
          simp only [runStepsLoop, hd]
          rw [List.filter_cons_of_pos (by simp), List.flatMap_cons,
            ← ih (fun t ht => hinv t (List.mem_cons_of_mem s ht))]
          simp [hsm]
      | error e =>
          simp only [runStepsLoop, hd]
          rw [List.filter_cons_of_pos (by simp), List.flatMap_cons]
          have hrest : rest.filter
              (fun s => !(decide (s.status = StepStatus.Pending))) =
                [] := by
            rw [List.filter_eq_nil_iff]
            intro t ht
            have := (hinv t (List.mem_cons_of_mem s ht)).1
            simp [this]
          rw [hrest]
          simp [hsm]

/-- C4: every status transition is notified — with a valid config, the
`on_progress` trace of `run_all` is exactly, for each executed step in
order, its `InProgress` snapshot followed by its terminal (`Completed` or
`Failed`) snapshot; steps left `Pending` contribute nothing.  So every
executed step's `InProgress` notification precedes its terminal
notification, and no status transition lacks a notification. -/
theorem run_all_every_transition_notified (config : InstallConfig)
    (handlers : StepHandlers)
    (hval : InstallOrchestrator.validate_config config = .ok ()) :
    (InstallOrchestrator.run_all handlers
      (InstallOrchestrator.new config)).2.1 =
      (((InstallOrchestrator.run_all handlers
        (InstallOrchestrator.new config)).1.steps.filter
          (fun s => !(decide (s.status = StepStatus.Pending)))).flatMap
        (fun s =>
          [{ s with
              status := .InProgress,
              progress_percent := 0,
              message := "" }, s])) := by
  rw [run_all_of_valid handlers (InstallOrchestrator.new config) hval]
  exact runStepsLoop_trace handlers (InstallOrchestrator.new config).steps
    (fun s hs => ⟨(new_steps_pending config s hs).1,
      (new_steps_pending config s hs).2.2⟩)

/-- Witness for C4 on the valid example config with all-success
handlers. -/
theorem run_all_every_transition_notified_witness :
    (InstallOrchestrator.run_all okHandlers
      (InstallOrchestrator.new exampleConfig)).2.1 =
      (((InstallOrchestrator.run_all okHandlers
        (InstallOrchestrator.new exampleConfig)).1.steps.filter
          (fun s => !(decide (s.status = StepStatus.Pending)))).flatMap
        (fun s =>
          [{ s with
              status := .InProgress,
              progress_percent := 0,
              message := "" }, s])) :=
  run_all_every_transition_notified exampleConfig okHandlers rfl

/-- In-bounds `run_step` whose dispatch succeeds: the indexed step becomes
`Completed` at progress 100 with the handler's message. -/
theorem run_step_eq_ok (handlers : StepHandlers)
    (o : InstallOrchestrator) (index : Nat) (msg : String)
    (h : index < o.steps.length)
    (hd : dispatchStep handlers ((o.steps.getD index dummyStep).name) =
      .ok msg) :
    InstallOrchestrator.run_step handlers o index =
      ({ o with
          steps := o.steps.set index
            (completedStep (o.steps.getD index dummyStep) msg) },
       .ok (completedStep (o.steps.getD index dummyStep) msg)) := by
  unfold InstallOrchestrator.run_step completedStep
  rw [if_pos h]
  simp only [hd]

/-- In-bounds `run_step` whose dispatch fails: the indexed step becomes
`Failed(e.to_string())` and the error is returned. -/
theorem run_step_eq_err (handlers : StepHandlers)
    (o : InstallOrchestrator) (index : Nat) (e : InstallError)
    (h : index < o.steps.length)
    (hd : dispatchStep handlers ((o.steps.getD index dummyStep).name) =
      .error e) :
    InstallOrchestrator.run_step handlers o index =
      ({ o with
          steps := o.steps.set index
            (failedStep (o.steps.getD index dummyStep) e) },
       .error e) := by
  unfold InstallOrchestrator.run_step failedStep
  rw [if_pos h]
  simp only [hd]

/-- Setting a step to a same-named replacement never changes any step's
name. -/
theorem getD_set_name (l : List StepState) (index : Nat) (x : StepState)
    (hx : x.name = (l.getD index dummyStep).name) :
    ∀ j, ((l.set index x).getD j dummyStep).name =
      (l.getD j dummyStep).name := by
  intro j
  by_cases hij : index = j
  · subst hij
    by_cases hlen : index < l.length
    · rw [List.getD_eq_getD_get?, List.get?_set_eq_of_lt _ hlen]
      exact hx
    · rw [List.set_eq_of_length_le (Nat.le_of_not_lt hlen)]
  · rw [List.getD_eq_getD_get?, List.getD_eq_getD_get?,
      List.get?_set_ne _ _ hij]

/-- Unfolding `invokedUntilError` on a succeeding index. -/
theorem invokedUntilError_cons_ok (ok : Nat → Bool) (i : Nat)
    (rest : List Nat) (h : ok i = true) :
    invokedUntilError ok (i :: rest) = i :: invokedUntilError ok rest := by
  simp [invokedUntilError, h]

/-- Unfolding `invokedUntilError` on a failing index. -/
theorem invokedUntilError_cons_err (ok : Nat → Bool) (i : Nat)
    (rest : List Nat) (h : ok i = false) :
    invokedUntilError ok (i :: rest) = [i] := by
  simp [invokedUntilError, h]

/-- Congruence: `invokedUntilError` only looks at the predicate on the given
indices. -/
theorem invokedUntilError_congr (ok1 ok2 : Nat → Bool) :
    ∀ idxs : List Nat, (∀ i ∈ idxs, ok1 i = ok2 i) →
      invokedUntilError ok1 idxs = invokedUntilError ok2 idxs := by
  intro idxs
  induction idxs with
  | nil => intro _; rfl
  | cons i rest ih =>
      intro h
      have hi := h i (List.mem_cons_self i rest)
      have hrest := ih fun j hj => h j (List.mem_cons_of_mem i hj)
      simp only [invokedUntilError, hi, hrest]

/-- The resume loop invokes exactly the indices `invokedUntilError`
predicts from the (name-stable) dispatch outcomes. -/
theorem resumeLoop_invoked (handlers : StepHandlers) :
    ∀ (idxs : List Nat) (o : InstallOrchestrator),
      (∀ i ∈ idxs, i < o.steps.length) →
      (resumeLoop handlers o idxs).1 =
        invokedUntilError
          (fun i => (dispatchStep handlers
            ((o.steps.getD i dummyStep).name)).isOk) idxs := by
  intro idxs
  induction idxs with
  | nil => intro o _; rfl
  | cons i rest ih =>
      intro o hb
      have hi : i < o.steps.length := hb i (List.mem_cons_self i rest)
      cases hd : dispatchStep handlers ((o.steps.getD i dummyStep).name)
        with
      | ok msg =>
          rw [invokedUntilError_cons_ok _ _ _ (by rw [hd]; rfl)]
          simp only [resumeLoop, run_step_eq_ok handlers o i msg hi hd]
          have hb' : ∀ k ∈ rest,
              k < (o.steps.set i
                (completedStep (o.steps.getD i dummyStep) msg)).length := by
            intro k hk
            rw [List.length_set]
            exact hb k (List.mem_cons_of_mem i hk)
          rw [ih _ hb']
          have hnames := getD_set_name o.steps i
            (completedStep (o.steps.getD i dummyStep) msg) rfl
          have hcg := invokedUntilError_congr
            (fun k => (dispatchStep handlers
              (((o.steps.set i
                (completedStep (o.steps.getD i dummyStep) msg)).getD k
                  dummyStep).name)).isOk)
            (fun k => (dispatchStep handlers
              ((o.steps.getD k dummyStep).name)).isOk)
            rest (fun k _ => by simp only [hnames k])
          simp only [hcg]
      | error e =>
          rw [invokedUntilError_cons_err _ _ _ (by rw [hd]; rfl)]
          simp only [resumeLoop, run_step_eq_err handlers o i e hi hd]

/-- On a contiguous index range, the invoked sequence starts at the range
start, stays within the range, climbs by exactly one, and never continues
past a failing index. -/
theorem invokedUntilError_range_props (ok : Nat → Bool) :
    ∀ n s : Nat,
      (0 < n →
        (invokedUntilError ok (List.range' s n)).head? = some s) ∧
      (∀ j ∈ invokedUntilError ok (List.range' s n),
        s ≤ j ∧ j < s + n) ∧
      (invokedUntilError ok (List.range' s n)).Chain'
        (fun a b => b = a + 1) ∧
      (∀ j ∈ invokedUntilError ok (List.range' s n), ok j = false →
        ∀ k ∈ invokedUntilError ok (List.range' s n), k ≤ j) := by
  intro n
  induction n with
  | zero =>
      intro s
      exact ⟨fun h => absurd h (Nat.lt_irrefl 0),
        fun j hj => absurd hj (List.not_mem_nil j),
        List.chain'_nil,
        fun j hj => absurd hj (List.not_mem_nil j)⟩
  | succ n ihn =>
      intro s
      have hr : List.range' s (n + 1) = s :: List.range' (s + 1) n := rfl
      by_cases hok : ok s = true
      · rw [hr, invokedUntilError_cons_ok _ _ _ hok]
        obtain ⟨ih1, ih2, ih3, ih4⟩ := ihn (s + 1)
        refine ⟨fun _ => rfl, ?_, ?_, ?_⟩
        · intro j hj
          rcases List.mem_cons.mp hj with rfl | hj'
          · omega
          · have := ih2 j hj'
            omega
        · rw [List.chain'_cons']
          refine ⟨?_, ih3⟩
          intro b hb1
          cases n with
          | zero => simp [invokedUntilError] at hb1
          | succ n' =>
              rw [ih1 (Nat.succ_pos n')] at hb1
              simp only [Option.mem_def, Option.some_inj] at hb1
              omega
        · intro j hj hjf k hk
          rcases List.mem_cons.mp hj with rfl | hj'
          · rw [hjf] at hok
            cases hok
          · rcases List.mem_cons.mp hk with rfl | hk'
            · have := (ih2 j hj').1
              omega
            · exact ih4 j hj' hjf k hk'
      · have hok' : ok s = false := by
          revert hok
          cases ok s <;> simp
        rw [hr, invokedUntilError_cons_err _ _ _ hok']
        refine ⟨fun _ => rfl, ?_, ?_, ?_⟩
        · intro j hj
          rcases List.mem_cons.mp hj with rfl | hj'
          · omega
          · exact absurd hj' (List.not_mem_nil j)
        · simp
        · intro j hj _ k hk
          rcases List.mem_cons.mp hj with rfl | hj'
          · rcases List.mem_cons.mp hk with rfl | hk'
            · exact Nat.le_refl _
            · exact absurd hk' (List.not_mem_nil k)
          · exact absurd hj' (List.not_mem_nil j)

/-- C3: Resume skips completed steps — with
`completed_steps = ["system_check", "php_install"]`, `resume_install`
invokes `run_step` first for index 2 (the step named `"core_packages"`),
never for indices 0 or 1, then for consecutive ascending indices below 12,
and never invokes an index after one whose dispatch failed (the first
`run_step` error stops the loop). -/
theorem resume_install_skips_completed (config : InstallConfig)
    (handlers : StepHandlers) :
    ((InstallOrchestrator.new config).steps.getD 2 dummyStep).name =
      "core_packages" ∧
    (InstallService.resume_install handlers config
      ["system_check", "php_install"]).1.head? = some 2 ∧
    (∀ j ∈ (InstallService.resume_install handlers config
      ["system_check", "php_install"]).1, 2 ≤ j ∧ j < 12) ∧
    (InstallService.resume_install handlers config
      ["system_check", "php_install"]).1.Chain' (fun a b => b = a + 1) ∧
    (∀ j ∈ (InstallService.resume_install handlers config
        ["system_check", "php_install"]).1,
      (dispatchStep handlers
        (((InstallOrchestrator.new config).steps.getD j
          dummyStep).name)).isOk = false →
      ∀ k ∈ (InstallService.resume_install handlers config
        ["system_check", "php_install"]).1, k ≤ j) := by
  have hres : (InstallService.resume_install handlers config
      ["system_check", "php_install"]).1 =
      invokedUntilError
        (fun i => (dispatchStep handlers
          (((InstallOrchestrator.new config).steps.getD i
            dummyStep).name)).isOk)
        (List.range' 2 10) := by
    show (resumeLoop handlers (InstallOrchestrator.new config)
      (List.range' 2 10)).1 = _
    exact resumeLoop_invoked handlers (List.range' 2 10)
      (InstallOrchestrator.new config) (by
        intro k hk
        have hk' := List.mem_range'_1.mp hk
        rw [show (InstallOrchestrator.new config).steps.length = 12
          from rfl]
        omega)
  obtain ⟨p1, p2, p3, p4⟩ := invokedUntilError_range_props
    (fun i => (dispatchStep handlers
      (((InstallOrchestrator.new config).steps.getD i
        dummyStep).name)).isOk) 10 2
  rw [hres]
  refine ⟨rfl, p1 (by omega), ?_, p3, p4⟩
  intro j hj
  have := p2 j hj
  omega

/-- Witness for C3 on the example config with all-success handlers. -/
theorem resume_install_skips_completed_witness :
    (InstallService.resume_install okHandlers exampleConfig
      ["system_check", "php_install"]).1.head? = some 2 :=
  (resume_install_skips_completed exampleConfig okHandlers).2.1

end Ceymail
